import Mathlib

/-!
Verification of the netchart network-traffic monitor (src/netchart.py).

The Python module keeps one mutable dictionary, interfaces_data, mapping an
interface name to its per-interface record, and updates it in place on every
tick.  We embed that shallowly: the dictionary becomes an insertion-ordered
association list (Python dicts preserve insertion order), in-place mutation
becomes explicit state passing, the float speed samples become rationals
(every value the program produces is a dyadic rational, represented exactly by
an IEEE double for realistic counter ranges and by the rationals here), and
the cumulative byte counters reported by psutil become integers.
-/

namespace Netchart

/-- One per-interface record, mirroring the defaultdict value of
interfaces_data in netchart.py (lines 14-23): lists bytes_sent / bytes_recv /
timestamps hold the speed-sample history and its x-axis index, peaks and
totals are scalars, start_time is the creation timestamp (modelled as rational
seconds). -/
structure IfaceData where
  bytes_sent : List ℚ
  bytes_recv : List ℚ
  timestamps : List ℕ
  peak_sent : ℚ
  peak_recv : ℚ
  total_sent : ℤ
  total_recv : ℤ
  start_time : ℚ
  deriving DecidableEq

/-- The defaultdict factory: the record a fresh interface gets on first
access, with datetime.now() passed in as the current time. -/
def defaultEntry (now : ℚ) : IfaceData :=
  { bytes_sent := []
    bytes_recv := []
    timestamps := []
    peak_sent := 0
    peak_recv := 0
    total_sent := 0
    total_recv := 0
    start_time := now }

/-- A snapshot, as produced by get_network_stats: interface name mapped to the
cumulative (bytes_sent, bytes_recv) counters, in dict insertion order. -/
abbrev Snapshot := List (String × ℤ × ℤ)

/-- The interfaces_data dictionary: insertion-ordered association list. -/
abbrev State := List (String × IfaceData)

/-- First-match association-list lookup, the model of Python dict lookup. -/
def assocFind {α : Type} : List (String × α) → String → Option α
  | [], _ => none
  | (k, v) :: rest, i => if k = i then some v else assocFind rest i

/-- Dict assignment d[k] = v: replace the value at an existing key in place
(Python dicts keep the key's position), else append a new binding. -/
def setEntry : State → String → IfaceData → State
  | [], k, v => [(k, v)]
  | (k', v') :: rest, k, v =>
      if k' = k then (k, v) :: rest else (k', v') :: setEntry rest k v

/-- calculate_speed (netchart.py lines 44-46):
(current - previous) / 1024, the KB/s sample.  Exact rational division. -/
def calculate_speed (current previous : ℤ) : ℚ :=
  ((current : ℚ) - (previous : ℚ)) / 1024

/-- The history-window eviction step of update_data (lines 92-96): if the
timestamps list has grown past history_size, pop the oldest element of all
three lists and re-issue timestamps as range(len(timestamps)). -/
def evictStep (d1 : IfaceData) (history_size : ℕ) : IfaceData :=
  if d1.timestamps.length > history_size then
    { d1 with
      bytes_sent := d1.bytes_sent.drop 1
      bytes_recv := d1.bytes_recv.drop 1
      timestamps := List.range ((d1.timestamps.drop 1).length) }
  else d1

/-- The per-interface body of update_data (lines 77-96) for an interface seen
in both snapshots: compute both speed samples, fold them into the peaks,
overwrite the totals with the current counters, append the samples and the
next index len(timestamps), then apply the eviction step. -/
def updateIface (d : IfaceData) (curSent curRecv prevSent prevRecv : ℤ)
    (history_size : ℕ) : IfaceData :=
  evictStep
    { d with
      peak_sent := max d.peak_sent (calculate_speed curSent prevSent)
      peak_recv := max d.peak_recv (calculate_speed curRecv prevRecv)
      total_sent := curSent
      total_recv := curRecv
      bytes_sent := d.bytes_sent ++ [calculate_speed curSent prevSent]
      bytes_recv := d.bytes_recv ++ [calculate_speed curRecv prevRecv]
      timestamps := d.timestamps ++ [d.timestamps.length] }
    history_size

/-- update_data (netchart.py lines 73-96).  The Python for-loop over the
current snapshot becomes structural recursion; an interface missing from
previous_stats is skipped, otherwise its entry (created by the defaultdict on
first access, stamped with now) is replaced by the updated record. -/
def update_data : Snapshot → Snapshot → ℕ → ℚ → State → State
  | [], _, _, _, st => st
  | e :: rest, previous_stats, history_size, now, st =>
      update_data rest previous_stats history_size now
        (match assocFind previous_stats e.1 with
         | some p =>
             setEntry st e.1
               (updateIface ((assocFind st e.1).getD (defaultEntry now))
                 e.2.1 e.2.2 p.1 p.2 history_size)
         | none => st)

/-- One driver tick, as fed to update_data by main's loop (lines 255-259):
the current snapshot, the previous snapshot, and the wall-clock time used by
the defaultdict factory for entries created during this tick. -/
structure Tick where
  stats : Snapshot
  previous_stats : Snapshot
  now : ℚ

/-- Running a sequence of update_data calls starting from the empty
interfaces_data dictionary the module starts with. -/
def runUpdates (history_size : ℕ) (ticks : List Tick) : State :=
  ticks.foldl (fun st t => update_data t.stats t.previous_stats history_size t.now st) []

/-- The pair of speed samples a tick produces for interface i, if any:
present exactly when i is in both snapshots of the tick. -/
def tickSamples (t : Tick) (i : String) : Option (ℚ × ℚ) :=
  match assocFind t.stats i, assocFind t.previous_stats i with
  | some c, some p => some (calculate_speed c.1 p.1, calculate_speed c.2 p.2)
  | _, _ => none

/-- All sent-speed samples ever observed for interface i over a run, oldest
first. -/
def sentSamples (ticks : List Tick) (i : String) : List ℚ :=
  ticks.filterMap (fun t => (tickSamples t i).map Prod.fst)

/-- All received-speed samples ever observed for interface i over a run. -/
def recvSamples (ticks : List Tick) (i : String) : List ℚ :=
  ticks.filterMap (fun t => (tickSamples t i).map Prod.snd)

/-! ### Number formatting (netchart.py lines 48-64)

Python renders values with f-string :.2f formatting.  We model it on exact
rationals: multiply by 100 and round to the nearest integer.  Mathlib's round
is round-half-up while CPython rounds the underlying double half-to-even;
the two agree except on exact midpoints, which no claim exercises. -/

/-- Render a non-negative number of hundredths as a fixed two-decimal
string, e.g. 102400 becomes "1024.00". -/
def fmt2Nat (n : ℕ) : String :=
  toString (n / 100) ++ "." ++
    (if n % 100 < 10 then "0" ++ toString (n % 100) else toString (n % 100))

/-- The f-string :.2f conversion on a rational. -/
def fmt2 (q : ℚ) : String :=
  if q < 0 then "-" ++ fmt2Nat (round (-q * 100)).toNat
  else fmt2Nat (round (q * 100)).toNat

/-- format_speed (lines 48-55): thresholds at 1024 and 1024*1024 on a value
already expressed in KB/s. -/
def format_speed (speed : ℚ) : String :=
  if speed ≥ 1024 * 1024 then fmt2 (speed / (1024 * 1024)) ++ " GB/s"
  else if speed ≥ 1024 then fmt2 (speed / 1024) ++ " MB/s"
  else fmt2 speed ++ " KB/s"

/-- format_bytes (lines 57-64): thresholds at 1024^3 and 1024^2 on a raw
byte count; the smallest branch still divides by 1024, so the floor unit is
KB. -/
def format_bytes (bytes : ℚ) : String :=
  if bytes ≥ 1024 * 1024 * 1024 then fmt2 (bytes / (1024 * 1024 * 1024)) ++ " GB"
  else if bytes ≥ 1024 * 1024 then fmt2 (bytes / (1024 * 1024)) ++ " MB"
  else fmt2 (bytes / 1024) ++ " KB"

/-! ### Chart y-axis scaling (plot_network_traffic, netchart.py lines 197-205) -/

/-- Python max(l + [0]): the maximum of a list with 0 adjoined. -/
def pyMax0 (l : List ℚ) : ℚ := l.foldl max 0

/-- One iteration of the max_speed loop (lines 200-204): interfaces whose two
histories are both empty are skipped, otherwise both history maxima are folded
in. -/
def autoScaleStep (m : ℚ) (p : String × IfaceData) : ℚ :=
  if p.2.bytes_sent ≠ [] ∨ p.2.bytes_recv ≠ [] then
    max (max m (pyMax0 p.2.bytes_sent)) (pyMax0 p.2.bytes_recv)
  else m

/-- The max_speed value computed when auto_scale is on, starting from the
minimum scale 1.0 (line 198). -/
def autoScaleMaxSpeed (st : State) : ℚ := st.foldl autoScaleStep 1

/-- The upper y-axis bound passed to plt.ylim (line 205): max_speed * 1.1. -/
def y_axis_upper (st : State) : ℚ := autoScaleMaxSpeed st * (11 / 10)

/-- Every speed sample currently held in any interface's histories, in
iteration order. -/
def allSamples (st : State) : List ℚ :=
  st.foldr (fun p acc => p.2.bytes_sent ++ (p.2.bytes_recv ++ acc)) []

/-- The maximum speed sample across all interfaces' histories (meaningful when
at least one sample exists). -/
def maxSample (st : State) : ℚ := (allSamples st).foldl max (allSamples st).headI

/-- Modelled from the claim C4 wording, for comparison with the code's
y_axis_upper: "max(1.0, 1.1 x (maximum speed sample across all interfaces'
histories))". -/
def spec_y_axis_upper (st : State) : ℚ := max 1 ((11 / 10) * maxSample st)

/-! ### The stats panel (create_stats_display, netchart.py lines 98-173) -/

/-- A run of n copies of one character, modelling Python string repetition. -/
def repChar (c : Char) (n : ℕ) : String := String.mk (List.replicate n c)

/-- Python str.ljust: pad on the right with spaces up to width w; strings of
length at least w are returned unchanged. -/
def ljust (s : String) (w : ℕ) : String := s ++ repChar ' ' (w - s.length)

/-- Python str.center, with CPython's left-margin rule
left = marg / 2 + (marg AND width AND 1). -/
def center (s : String) (w : ℕ) : String :=
  let marg := w - s.length
  let left := marg / 2 + (marg &&& w &&& 1)
  repChar ' ' left ++ s ++ repChar ' ' (marg - left)

/-- The f-string :02d conversion: zero-pad to two characters. -/
def pad2 (n : ℤ) : String :=
  let s := toString n
  if s.length < 2 then "0" ++ s else s

/-- The add_line helper of create_stats_display (lines 126-129): a bordered
line whose text is left-justified in the panel width, narrowed by one column
per double-width emoji. -/
def statsLine (panel_width : ℕ) (text : String) (emoji_count : ℕ) : String :=
  "│" ++ ljust text (panel_width - emoji_count) ++ "│"

/-- The four lines emitted per active interface in the Interface Details
section (lines 146-153).  The source indexes data['bytes_sent'][-1] on a
non-empty-timestamps entry; every state update_data produces keeps the three
lists in lockstep, so the getLastD default is never consulted there. -/
def ifaceDetailBlock (panel_width : ℕ) (status : String → Bool)
    (p : String × IfaceData) : List String :=
  [statsLine panel_width "" 0,
   statsLine panel_width
     (" " ++ (if status p.1 then "🟢" else "🔴") ++ " " ++ p.1 ++ ":") 1,
   statsLine panel_width ("   Current: ↑" ++ format_speed (p.2.bytes_sent.getLastD 0)) 0,
   statsLine panel_width ("           ↓" ++ format_speed (p.2.bytes_recv.getLastD 0)) 0]

/-- create_stats_display (lines 98-173).  status models get_interface_status
(a psutil query) and now models datetime.now() in seconds.  The Monitor
Duration line calls next(iter(interfaces_data.values())) which raises
StopIteration on an empty dictionary, so the function only returns a panel
when at least one interface has been recorded: none models that failure. -/
def create_stats_display (width height : ℕ) (st : State) (status : String → Bool)
    (now : ℚ) : Option (List String) :=
  match st with
  | [] => none
  | first :: _ =>
    let active := st.filter (fun p => p.2.timestamps ≠ [])
    let total_sent : ℤ := active.foldl (fun a p => a + p.2.total_sent) 0
    let total_recv : ℤ := active.foldl (fun a p => a + p.2.total_recv) 0
    let peak_sent : ℚ := active.foldl (fun a p => max a p.2.peak_sent) 0
    let peak_recv : ℚ := active.foldl (fun a p => max a p.2.peak_recv) 0
    let current_sent : ℚ := active.foldl (fun a p => a + p.2.bytes_sent.getLastD 0) 0
    let current_recv : ℚ := active.foldl (fun a p => a + p.2.bytes_recv.getLastD 0) 0
    let panel_width := width - 2
    let header : List String :=
      ["┌" ++ repChar '─' panel_width ++ "┐",
       "│" ++ center "Network Summary" panel_width ++ "│",
       "│" ++ repChar '═' panel_width ++ "│",
       "│" ++ repChar ' ' panel_width ++ "│"]
    let body1 : List String :=
      [statsLine panel_width " Total Transferred:" 0,
       statsLine panel_width ("   ↑ " ++ format_bytes (total_sent : ℚ)) 0,
       statsLine panel_width ("   ↓ " ++ format_bytes (total_recv : ℚ)) 0,
       statsLine panel_width "" 0,
       statsLine panel_width " Peak Throughput:" 0,
       statsLine panel_width ("   ↑ " ++ format_speed peak_sent) 0,
       statsLine panel_width ("   ↓ " ++ format_speed peak_recv) 0,
       statsLine panel_width "" 0,
       statsLine panel_width " Current Throughput:" 0,
       statsLine panel_width ("   ↑ " ++ format_speed current_sent) 0,
       statsLine panel_width ("   ↓ " ++ format_speed current_recv) 0,
       statsLine panel_width "" 0,
       statsLine panel_width " Interface Details:" 0]
    let details : List String := (active.map (ifaceDetailBlock panel_width status)).flatten
    let body2 : List String :=
      [statsLine panel_width "" 0,
       statsLine panel_width " Active Interfaces:" 0,
       statsLine panel_width ("   " ++ toString active.length) 0,
       statsLine panel_width "" 0]
    let dur : ℚ := now - first.2.start_time
    let body3 : List String :=
      [statsLine panel_width " Monitor Duration:" 0,
       statsLine panel_width
         ("   " ++ pad2 ⌊dur / 3600⌋ ++ ":" ++ pad2 ⌊(dur - 3600 * ⌊dur / 3600⌋) / 60⌋
           ++ ":" ++ pad2 ⌊dur - 60 * ⌊dur / 60⌋⌋) 0]
    let content := header ++ body1 ++ details ++ body2 ++ body3
    let padded := content ++ List.replicate (height - 1 - content.length) (statsLine panel_width "" 0)
    some (padded ++ ["└" ++ repChar '─' panel_width ++ "┘"])

/-! ### Concrete inputs used by witnesses and counterexamples -/

/-- One tick for eth0: counters go from (0, 0) to (512, 512), producing a
0.5 KB/s sample on both directions. -/
def sampleTicks : List Tick :=
  [⟨[("eth0", (512, 512))], [("eth0", (0, 0))], 0⟩]

/-- The state after running sampleTicks with the default history size. -/
def sampleSt : State := runUpdates 60 sampleTicks

/-- The eth0 record that run produces: histories [0.5], timeIndex [0],
peaks 0.5, totals 512, start time 0. -/
def sampleEntry : IfaceData := updateIface (defaultEntry 0) 512 512 0 0 60

/-- One tick for eth0 in which the cumulative counters decrease by 1024
bytes (a counter reset), producing a -1 KB/s sample on both directions. -/
def negTicks : List Tick :=
  [⟨[("eth0", (0, 0))], [("eth0", (1024, 1024))], 0⟩]

/-! ## Association-list lemmas -/

lemma assocFind_setEntry (st : State) (k j : String) (v : IfaceData) :
    assocFind (setEntry st k v) j = if k = j then some v else assocFind st j := by
  induction st with
  | nil => simp [setEntry, assocFind]
  | cons hd tl ih =>
    obtain ⟨k', v'⟩ := hd
    by_cases h1 : k' = k
    · subst h1
      by_cases h2 : k' = j <;> simp [setEntry, assocFind, h2]
    · by_cases h2 : k' = j
      · subst h2
        have h1' : ¬ k = k' := fun h => h1 h.symm
        simp [setEntry, assocFind, h1, h1']
      · simp [setEntry, assocFind, h1, h2, ih]

lemma assocFind_eq_none {α : Type} (l : List (String × α)) (i : String)
    (h : i ∉ l.map Prod.fst) : assocFind l i = none := by
  induction l with
  | nil => rfl
  | cons hd tl ih =>
    obtain ⟨k, v⟩ := hd
    simp only [List.map_cons, List.mem_cons, not_or] at h
    have hk : ¬ k = i := fun hh => h.1 hh.symm
    simp [assocFind, hk, ih h.2]

/-- The value update_data leaves at key i: if i is in both snapshots its
entry (freshly created if absent) goes through updateIface, otherwise the
state at i is untouched.  Nodup of the snapshot keys models the Python dict
the loop iterates over. -/
lemma assocFind_update_data (stats previous_stats : Snapshot) (history_size : ℕ)
    (now : ℚ) (st : State) (i : String) (hn : (stats.map Prod.fst).Nodup) :
    assocFind (update_data stats previous_stats history_size now st) i =
      match assocFind stats i, assocFind previous_stats i with
      | some c, some p =>
          some (updateIface ((assocFind st i).getD (defaultEntry now))
            c.1 c.2 p.1 p.2 history_size)
      | _, _ => assocFind st i := by
  induction stats generalizing st with
  | nil =>
    rw [update_data]
    cases hp : assocFind previous_stats i <;> rfl
  | cons e rest ih =>
    obtain ⟨k, c⟩ := e
    simp only [List.map_cons, List.nodup_cons] at hn
    obtain ⟨hk, hrest⟩ := hn
    rw [update_data]
    by_cases hik : k = i
    · subst hik
      have hre : assocFind rest k = none := assocFind_eq_none rest k hk
      have hcons : assocFind ((k, c) :: rest) k = some c := by simp [assocFind]
      cases hp : assocFind previous_stats k with
      | some p =>
        dsimp only
        rw [ih _ hrest, hre, hp, hcons]
        dsimp only
        rw [assocFind_setEntry, if_pos rfl]
      | none =>
        dsimp only
        rw [ih _ hrest, hre, hp, hcons]
    · have hcons : assocFind ((k, c) :: rest) i = assocFind rest i := by
        simp [assocFind, hik]
      cases hp : assocFind previous_stats k with
      | some p =>
        dsimp only
        rw [ih _ hrest, hcons]
        rw [assocFind_setEntry, if_neg hik]
      | none =>
        dsimp only
        rw [ih _ hrest, hcons]

lemma assocFind_update_data_both {stats previous_stats : Snapshot} {history_size : ℕ}
    {now : ℚ} {st : State} {i : String} {c p : ℤ × ℤ}
    (hn : (stats.map Prod.fst).Nodup)
    (hc : assocFind stats i = some c) (hp : assocFind previous_stats i = some p) :
    assocFind (update_data stats previous_stats history_size now st) i =
      some (updateIface ((assocFind st i).getD (defaultEntry now))
        c.1 c.2 p.1 p.2 history_size) := by
  rw [assocFind_update_data _ _ _ _ _ _ hn, hc, hp]

lemma assocFind_update_data_skip {stats previous_stats : Snapshot} {history_size : ℕ}
    {now : ℚ} {st : State} {i : String}
    (hn : (stats.map Prod.fst).Nodup)
    (h : assocFind stats i = none ∨ assocFind previous_stats i = none) :
    assocFind (update_data stats previous_stats history_size now st) i =
      assocFind st i := by
  rw [assocFind_update_data _ _ _ _ _ _ hn]
  rcases h with h | h
  · rw [h]
  · rw [h]
    cases hc : assocFind stats i <;> rfl

/-! ## Per-entry invariant preservation -/

lemma update_data_entry_inv (P : IfaceData → Prop) (history_size : ℕ)
    (hdef : ∀ t, P (defaultEntry t))
    (hupd : ∀ d a b c e, P d → P (updateIface d a b c e history_size)) :
    ∀ (stats previous_stats : Snapshot) (now : ℚ) (st : State),
      (∀ i d, assocFind st i = some d → P d) →
      ∀ i d, assocFind (update_data stats previous_stats history_size now st) i = some d →
        P d := by
  intro stats
  induction stats with
  | nil =>
    intro previous_stats now st hst i d hd
    rw [update_data] at hd
    exact hst i d hd
  | cons e rest ih =>
    intro previous_stats now st hst i d hd
    rw [update_data] at hd
    cases hp : assocFind previous_stats e.1 with
    | none =>
      rw [hp] at hd
      exact ih previous_stats now st hst i d hd
    | some p =>
      rw [hp] at hd
      refine ih previous_stats now _ ?_ i d hd
      intro j d' hj
      rw [assocFind_setEntry] at hj
      by_cases hje : e.1 = j
      · rw [if_pos hje] at hj
        injection hj with hj
        subst hj
        apply hupd
        cases hfound : assocFind st e.1 with
        | none => simpa [hfound] using hdef now
        | some d0 => simpa [hfound] using hst e.1 d0 hfound
      · rw [if_neg hje] at hj
        exact hst j d' hj

lemma runUpdates_entry_inv (P : IfaceData → Prop) (history_size : ℕ)
    (hdef : ∀ t, P (defaultEntry t))
    (hupd : ∀ d a b c e, P d → P (updateIface d a b c e history_size)) :
    ∀ (ticks : List Tick) (st : State),
      (∀ i d, assocFind st i = some d → P d) →
      ∀ i d, assocFind
          (ticks.foldl (fun s t => update_data t.stats t.previous_stats history_size t.now s) st)
          i = some d → P d := by
  intro ticks
  induction ticks with
  | nil => intro st hst i d hd; exact hst i d hd
  | cons t rest ih =>
    intro st hst i d hd
    exact ih _ (update_data_entry_inv P history_size hdef hupd _ _ _ _ hst) i d hd

lemma runUpdates_entry_inv' (P : IfaceData → Prop) (history_size : ℕ)
    (hdef : ∀ t, P (defaultEntry t))
    (hupd : ∀ d a b c e, P d → P (updateIface d a b c e history_size))
    (ticks : List Tick) :
    ∀ i d, assocFind (runUpdates history_size ticks) i = some d → P d := by
  intro i d hd
  refine runUpdates_entry_inv P history_size hdef hupd ticks [] ?_ i d hd
  intro j d' hj
  simp [assocFind] at hj

/-! ## updateIface field lemmas -/

lemma evictStep_peak_sent (d : IfaceData) (n : ℕ) :
    (evictStep d n).peak_sent = d.peak_sent := by
  rw [evictStep]; split <;> rfl

lemma evictStep_peak_recv (d : IfaceData) (n : ℕ) :
    (evictStep d n).peak_recv = d.peak_recv := by
  rw [evictStep]; split <;> rfl

lemma updateIface_peak_sent (d : IfaceData) (a b c e : ℤ) (n : ℕ) :
    (updateIface d a b c e n).peak_sent = max d.peak_sent (calculate_speed a c) := by
  rw [updateIface, evictStep_peak_sent]

lemma updateIface_peak_recv (d : IfaceData) (a b c e : ℤ) (n : ℕ) :
    (updateIface d a b c e n).peak_recv = max d.peak_recv (calculate_speed b e) := by
  rw [updateIface, evictStep_peak_recv]

lemma updateIface_lockstep {history_size : ℕ} {d : IfaceData} (a b c e : ℤ)
    (h1 : d.bytes_sent.length = d.bytes_recv.length)
    (h2 : d.bytes_recv.length = d.timestamps.length)
    (h3 : d.timestamps.length ≤ history_size) :
    (updateIface d a b c e history_size).bytes_sent.length =
        (updateIface d a b c e history_size).bytes_recv.length ∧
      (updateIface d a b c e history_size).bytes_recv.length =
        (updateIface d a b c e history_size).timestamps.length ∧
      (updateIface d a b c e history_size).timestamps.length ≤ history_size := by
  rw [updateIface, evictStep]
  dsimp only
  split
  next hcond =>
    dsimp only
    simp only [List.length_drop, List.length_append, List.length_range,
      List.length_cons, List.length_nil] at hcond ⊢
    omega
  next hcond =>
    simp only [List.length_append, List.length_cons, List.length_nil] at hcond ⊢
    omega

lemma updateIface_timestamps_range {d : IfaceData} (a b c e : ℤ) (n : ℕ)
    (h : d.timestamps = List.range d.timestamps.length) :
    (updateIface d a b c e n).timestamps =
      List.range (updateIface d a b c e n).timestamps.length := by
  obtain ⟨m, hm⟩ : ∃ m, d.timestamps = List.range m := ⟨d.timestamps.length, h⟩
  rw [updateIface, evictStep]
  split
  · simp
  · simp only
    rw [hm, List.length_range]
    rw [show (List.range m ++ [m]).length = m + 1 by simp]
    rw [List.range_succ]

/-- As long as history_size is at least 1, the sample appended by updateIface
is retained as the newest element of each speed history, eviction or not. -/
lemma updateIface_getLast {d : IfaceData} (a b c e : ℤ) {n : ℕ} (hn1 : 1 ≤ n)
    (h1 : d.bytes_sent.length = d.timestamps.length)
    (h2 : d.bytes_recv.length = d.timestamps.length) :
    (updateIface d a b c e n).bytes_sent.getLast? = some (calculate_speed a c) ∧
      (updateIface d a b c e n).bytes_recv.getLast? = some (calculate_speed b e) := by
  rw [updateIface, evictStep]
  dsimp only
  split
  next hcond =>
    dsimp only
    simp only [List.length_append, List.length_cons, List.length_nil] at hcond
    constructor
    · have hne : d.bytes_sent ≠ [] := by
        intro hnil
        rw [hnil] at h1
        simp only [List.length_nil] at h1
        omega
      obtain ⟨y, ys, hys⟩ := List.exists_cons_of_ne_nil hne
      rw [hys, List.cons_append, List.drop_succ_cons, List.drop_zero,
        List.getLast?_concat]
    · have hne : d.bytes_recv ≠ [] := by
        intro hnil
        rw [hnil] at h2
        simp only [List.length_nil] at h2
        omega
      obtain ⟨y, ys, hys⟩ := List.exists_cons_of_ne_nil hne
      rw [hys, List.cons_append, List.drop_succ_cons, List.drop_zero,
        List.getLast?_concat]
  next hcond =>
    exact ⟨List.getLast?_concat _, List.getLast?_concat _⟩

/-! ## Fold lemmas for maxima -/

lemma foldl_max_max (l : List ℚ) : ∀ a b : ℚ, l.foldl max (max a b) = max a (l.foldl max b) := by
  induction l with
  | nil => intro a b; rfl
  | cons x t ih =>
    intro a b
    rw [List.foldl_cons, List.foldl_cons, max_assoc, ih]

lemma le_foldl_max (l : List ℚ) : ∀ a : ℚ, a ≤ l.foldl max a := by
  induction l with
  | nil => intro a; exact le_refl a
  | cons x t ih =>
    intro a
    rw [List.foldl_cons]
    exact le_trans (le_max_left a x) (ih _)

lemma pyMax0_nonneg (l : List ℚ) : 0 ≤ pyMax0 l := le_foldl_max l 0

lemma foldl_autoScaleStep (st : State) : ∀ a : ℚ, 0 ≤ a →
    st.foldl autoScaleStep a = max a ((allSamples st).foldl max 0) := by
  induction st with
  | nil =>
    intro a ha
    simp only [List.foldl_nil, allSamples, List.foldr_nil]
    exact (max_eq_left ha).symm
  | cons p rest ih =>
    intro a ha
    have hall : allSamples (p :: rest) =
        p.2.bytes_sent ++ (p.2.bytes_recv ++ allSamples rest) := rfl
    rw [List.foldl_cons, hall]
    by_cases hc : p.2.bytes_sent ≠ [] ∨ p.2.bytes_recv ≠ []
    · have hstep : autoScaleStep a p =
          max (max a (pyMax0 p.2.bytes_sent)) (pyMax0 p.2.bytes_recv) := by
        rw [autoScaleStep, if_pos hc]
      have hsplit : (p.2.bytes_sent ++ (p.2.bytes_recv ++ allSamples rest)).foldl max 0 =
          max (pyMax0 p.2.bytes_sent)
            (max (pyMax0 p.2.bytes_recv) ((allSamples rest).foldl max 0)) := by
        rw [List.foldl_append, List.foldl_append]
        rw [show (p.2.bytes_sent.foldl max 0) = max (pyMax0 p.2.bytes_sent) 0 from
          (max_eq_left (pyMax0_nonneg _)).symm]
        rw [foldl_max_max, foldl_max_max]
        rw [show (p.2.bytes_recv.foldl max 0) = max (pyMax0 p.2.bytes_recv) 0 from
          (max_eq_left (pyMax0_nonneg _)).symm]
        rw [foldl_max_max]
      rw [hstep, ih _ (le_trans ha (le_trans (le_max_left _ _) (le_max_left _ _)))]
      rw [hsplit, max_assoc, max_assoc]
    · push_neg at hc
      have hstep : autoScaleStep a p = a := by
        rw [autoScaleStep, if_neg]
        push_neg
        exact hc
      rw [hstep, ih _ ha, hc.1, hc.2]
      simp

lemma autoScaleMaxSpeed_eq (st : State) :
    autoScaleMaxSpeed st = max 1 ((allSamples st).foldl max 0) :=
  foldl_autoScaleStep st 1 (by norm_num)

lemma length_flatten_detail (pw : ℕ) (status : String → Bool) :
    ∀ l : List (String × IfaceData),
      ((l.map (ifaceDetailBlock pw status)).flatten).length = 4 * l.length := by
  intro l
  induction l with
  | nil => rfl
  | cons p rest ih =>
    simp only [List.map_cons, List.flatten_cons, List.length_append, ih,
      ifaceDetailBlock, List.length_cons, List.length_nil]
    omega

/-! ## Run-level sample bookkeeping -/

lemma runUpdates_append (history_size : ℕ) (ticks : List Tick) (t : Tick) :
    runUpdates history_size (ticks ++ [t]) =
      update_data t.stats t.previous_stats history_size t.now
        (runUpdates history_size ticks) := by
  simp [runUpdates, List.foldl_append]

lemma sentSamples_append (ticks : List Tick) (t : Tick) (i : String) :
    sentSamples (ticks ++ [t]) i =
      sentSamples ticks i ++ ((tickSamples t i).map Prod.fst).toList := by
  simp only [sentSamples, List.filterMap_append]
  cases h : tickSamples t i <;> simp [List.filterMap_cons, h]

lemma recvSamples_append (ticks : List Tick) (t : Tick) (i : String) :
    recvSamples (ticks ++ [t]) i =
      recvSamples ticks i ++ ((tickSamples t i).map Prod.snd).toList := by
  simp only [recvSamples, List.filterMap_append]
  cases h : tickSamples t i <;> simp [List.filterMap_cons, h]

lemma foldl_max_concat (S : List ℚ) (x a : ℚ) :
    (S ++ [x]).foldl max a = max (S.foldl max a) x := by
  rw [List.foldl_append]; rfl

/-- Over any run from the empty state, the peaks of every existing entry are
exactly the fold of max over 0 and all samples observed for that interface,
and interfaces without an entry have no observed samples. -/
lemma runUpdates_peaks (history_size : ℕ) :
    ∀ ticks : List Tick, (∀ t ∈ ticks, (t.stats.map Prod.fst).Nodup) →
      (∀ i, assocFind (runUpdates history_size ticks) i = none →
          sentSamples ticks i = [] ∧ recvSamples ticks i = []) ∧
      (∀ i d, assocFind (runUpdates history_size ticks) i = some d →
          d.peak_sent = (sentSamples ticks i).foldl max 0 ∧
          d.peak_recv = (recvSamples ticks i).foldl max 0) := by
  intro ticks
  induction ticks using List.reverseRecOn with
  | nil =>
    intro _
    constructor
    · intro i _; exact ⟨rfl, rfl⟩
    · intro i d hd; simp [runUpdates, assocFind] at hd
  | append_singleton ticks t ih =>
    intro hn
    have hnt : (t.stats.map Prod.fst).Nodup := hn t (by simp)
    have hn' : ∀ u ∈ ticks, (u.stats.map Prod.fst).Nodup := fun u hu => hn u (by simp [hu])
    obtain ⟨ihnone, ihsome⟩ := ih hn'
    rw [runUpdates_append]
    constructor
    · intro i hd
      cases hc : assocFind t.stats i with
      | some c =>
        cases hp : assocFind t.previous_stats i with
        | some p =>
          rw [assocFind_update_data_both hnt hc hp] at hd
          exact absurd hd (by simp)
        | none =>
          rw [assocFind_update_data_skip hnt (Or.inr hp)] at hd
          have h0 := ihnone i hd
          rw [sentSamples_append, recvSamples_append, h0.1, h0.2]
          simp [tickSamples, hc, hp]
      | none =>
        rw [assocFind_update_data_skip hnt (Or.inl hc)] at hd
        have h0 := ihnone i hd
        rw [sentSamples_append, recvSamples_append, h0.1, h0.2]
        simp [tickSamples, hc]
    · intro i d hd
      cases hc : assocFind t.stats i with
      | some c =>
        cases hp : assocFind t.previous_stats i with
        | some p =>
          rw [assocFind_update_data_both hnt hc hp] at hd
          injection hd with hd
          subst hd
          have hts : tickSamples t i =
              some (calculate_speed c.1 p.1, calculate_speed c.2 p.2) := by
            simp [tickSamples, hc, hp]
          rw [sentSamples_append, recvSamples_append, hts]
          simp only [Option.map_some', Option.toList_some]
          rw [foldl_max_concat, foldl_max_concat]
          rw [updateIface_peak_sent, updateIface_peak_recv]
          cases hfound : assocFind (runUpdates history_size ticks) i with
          | some d0 =>
            have hih := ihsome i d0 hfound
            simp only [hfound, Option.getD_some]
            rw [hih.1, hih.2]
            exact ⟨rfl, rfl⟩
          | none =>
            have h0 := ihnone i hfound
            simp only [hfound, Option.getD_none]
            rw [h0.1, h0.2]
            exact ⟨rfl, rfl⟩
        | none =>
          rw [assocFind_update_data_skip hnt (Or.inr hp)] at hd
          have hih := ihsome i d hd
          have hts : tickSamples t i = none := by simp [tickSamples, hc, hp]
          rw [sentSamples_append, recvSamples_append, hts]
          simpa using hih
      | none =>
        rw [assocFind_update_data_skip hnt (Or.inl hc)] at hd
        have hih := ihsome i d hd
        have hts : tickSamples t i = none := by simp [tickSamples, hc]
        rw [sentSamples_append, recvSamples_append, hts]
        simpa using hih

/-! ## The claims -/

/-- C1: for every interface and after every sequence of update_data calls
with a fixed historySize, starting from the empty interfaces_data map, the
three per-interface sequences stay in lockstep and bounded:
len(sentSpeedHistory) = len(recvSpeedHistory) = len(timeIndex) <= historySize. -/
theorem history_lockstep_bounded (history_size : ℕ) (ticks : List Tick)
    (i : String) (d : IfaceData)
    (hd : assocFind (runUpdates history_size ticks) i = some d) :
    d.bytes_sent.length = d.bytes_recv.length ∧
      d.bytes_recv.length = d.timestamps.length ∧
      d.timestamps.length ≤ history_size := by
  refine runUpdates_entry_inv'
    (fun d => d.bytes_sent.length = d.bytes_recv.length ∧
      d.bytes_recv.length = d.timestamps.length ∧
      d.timestamps.length ≤ history_size)
    history_size ?_ ?_ ticks i d hd
  · intro t
    exact ⟨rfl, rfl, Nat.zero_le _⟩
  · intro d' a b c e h
    exact updateIface_lockstep a b c e h.1 h.2.1 h.2.2

/-- C1 witness: the lockstep bound holds on the entry produced by the
concrete sampleTicks run. -/
theorem history_lockstep_bounded_witness :
    sampleEntry.bytes_sent.length = sampleEntry.bytes_recv.length ∧
      sampleEntry.bytes_recv.length = sampleEntry.timestamps.length ∧
      sampleEntry.timestamps.length ≤ 60 :=
  history_lockstep_bounded 60 sampleTicks "eth0" sampleEntry rfl

/-- C2: for an interface present in both snapshots, the samples update_data
appends are exactly (cur - prev)/1024 in each direction — linear and
unclamped — and a counter decrease yields a negative sample.  The hypotheses
model the Python context: snapshot keys are dict keys (no duplicates), the
history size is at least 1 (CLI default 60) so the appended sample is
retained as the newest history element, and any pre-existing entry has its
lists in lockstep (which C1 guarantees for reachable states). -/
theorem speed_sample_linear (stats previous_stats : Snapshot) (history_size : ℕ)
    (now : ℚ) (st : State) (i : String) (cs cr ps pr : ℤ)
    (hn : (stats.map Prod.fst).Nodup)
    (hc : assocFind stats i = some (cs, cr))
    (hp : assocFind previous_stats i = some (ps, pr))
    (hhs : 1 ≤ history_size)
    (hlen : ∀ d0, assocFind st i = some d0 →
      d0.bytes_sent.length = d0.timestamps.length ∧
        d0.bytes_recv.length = d0.timestamps.length) :
    ∃ d, assocFind (update_data stats previous_stats history_size now st) i = some d ∧
      d.bytes_sent.getLast? = some (((cs : ℚ) - (ps : ℚ)) / 1024) ∧
      d.bytes_recv.getLast? = some (((cr : ℚ) - (pr : ℚ)) / 1024) ∧
      (cs < ps → ((cs : ℚ) - (ps : ℚ)) / 1024 < 0) := by
  have hlen0 : ((assocFind st i).getD (defaultEntry now)).bytes_sent.length =
      ((assocFind st i).getD (defaultEntry now)).timestamps.length ∧
      ((assocFind st i).getD (defaultEntry now)).bytes_recv.length =
        ((assocFind st i).getD (defaultEntry now)).timestamps.length := by
    cases hfound : assocFind st i with
    | some dd => simpa [hfound] using hlen dd hfound
    | none => simp [hfound, defaultEntry]
  obtain ⟨hs1, hs2⟩ := updateIface_getLast (d := (assocFind st i).getD (defaultEntry now))
    cs cr ps pr hhs hlen0.1 hlen0.2
  refine ⟨updateIface ((assocFind st i).getD (defaultEntry now)) cs cr ps pr history_size,
    assocFind_update_data_both hn hc hp, ?_, ?_, ?_⟩
  · rw [hs1, calculate_speed]
  · rw [hs2, calculate_speed]
  · intro hlt
    apply div_neg_of_neg_of_pos
    · rw [sub_neg]
      exact_mod_cast hlt
    · norm_num

/-- C2 witness: the concrete tick taking eth0's counters from (0, 0) to
(512, 512) on an empty state. -/
theorem speed_sample_linear_witness :
    ∃ d, assocFind (update_data [("eth0", (512, 512))] [("eth0", (0, 0))] 60 0 [])
        "eth0" = some d ∧
      d.bytes_sent.getLast? = some ((((512 : ℤ) : ℚ) - ((0 : ℤ) : ℚ)) / 1024) ∧
      d.bytes_recv.getLast? = some ((((512 : ℤ) : ℚ) - ((0 : ℤ) : ℚ)) / 1024) ∧
      ((512 : ℤ) < 0 → (((512 : ℤ) : ℚ) - ((0 : ℤ) : ℚ)) / 1024 < 0) :=
  speed_sample_linear [("eth0", (512, 512))] [("eth0", (0, 0))] 60 0 [] "eth0"
    512 512 0 0 (by decide) (by decide) (by decide) (by decide)
    (fun d0 h => by simp [assocFind] at h)

/-- C3 counterexample: after one update in which eth0's counters decreased
by 1024 bytes, the only sent speed sample ever observed is -1 KB/s, yet
peak_sent is 0 — the peak is not the maximum of the observed samples. -/
theorem peak_counterexample :
    (assocFind (runUpdates 60 negTicks) "eth0").map IfaceData.peak_sent = some 0 ∧
      sentSamples negTicks "eth0" = [-1] ∧ (0 : ℚ) ≠ -1 := by
  have hsp : calculate_speed 0 1024 = -1 := by
    rw [calculate_speed]; norm_num
  refine ⟨?_, ?_, by norm_num⟩
  · have h1 : (assocFind (runUpdates 60 negTicks) "eth0").map IfaceData.peak_sent =
        some (max 0 (calculate_speed 0 1024)) := rfl
    rw [h1, hsp, max_eq_left (by norm_num : (-1 : ℚ) ≤ 0)]
  · have h2 : sentSamples negTicks "eth0" = [calculate_speed 0 1024] := rfl
    rw [h2, hsp]

/-- C3 amended: peakSent (resp. peakRecv) equals the maximum of 0 — the
defaultdict initial value — and all sent (resp. received) speed samples ever
observed for that interface, expressed as the fold of max over the observed
samples starting from 0.  This is the lifetime maximum of the samples
whenever any observed sample is non-negative; peaks are never windowed. -/
theorem peak_eq_max_of_zero_and_samples (history_size : ℕ) (ticks : List Tick)
    (hn : ∀ t ∈ ticks, (t.stats.map Prod.fst).Nodup) (i : String) (d : IfaceData)
    (hd : assocFind (runUpdates history_size ticks) i = some d) :
    d.peak_sent = (sentSamples ticks i).foldl max 0 ∧
      d.peak_recv = (recvSamples ticks i).foldl max 0 :=
  (runUpdates_peaks history_size ticks hn).2 i d hd

/-- C3 witness: the amended peak characterisation on the concrete sampleTicks
run. -/
theorem peak_eq_max_of_zero_and_samples_witness :
    sampleEntry.peak_sent = (sentSamples sampleTicks "eth0").foldl max 0 ∧
      sampleEntry.peak_recv = (recvSamples sampleTicks "eth0").foldl max 0 :=
  peak_eq_max_of_zero_and_samples 60 sampleTicks (by decide) "eth0" sampleEntry rfl

/-- C4 counterexample: on the state whose single observed sample is 0.5 KB/s
the code passes ylim upper bound max(1.0, 0.5) * 1.1 = 1.1, while the
claim's formula max(1.0, 1.1 * 0.5) gives 1.0. -/
theorem y_axis_upper_counterexample :
    allSamples sampleSt ≠ [] ∧
      y_axis_upper sampleSt = 11 / 10 ∧
      spec_y_axis_upper sampleSt = 1 ∧
      (11 / 10 : ℚ) ≠ 1 := by
  have hsp : calculate_speed 512 0 = 1 / 2 := by
    rw [calculate_speed]; norm_num
  refine ⟨by decide, ?_, ?_, by norm_num⟩
  · have h1 : y_axis_upper sampleSt =
        max (max 1 (max 0 (calculate_speed 512 0))) (max 0 (calculate_speed 512 0)) *
          (11 / 10) := rfl
    rw [h1, hsp, max_eq_right (by norm_num : (0 : ℚ) ≤ 1 / 2),
      max_eq_left (by norm_num : (1 / 2 : ℚ) ≤ 1),
      max_eq_left (by norm_num : (1 / 2 : ℚ) ≤ 1), one_mul]
  · have h2 : spec_y_axis_upper sampleSt = max 1 ((11 / 10) *
        max (max (calculate_speed 512 0) (calculate_speed 512 0)) (calculate_speed 512 0)) :=
      rfl
    rw [h2, hsp, max_self, max_self,
      show (11 / 10 : ℚ) * (1 / 2) = 11 / 20 from by norm_num,
      max_eq_left (by norm_num : (11 / 20 : ℚ) ≤ 1)]

/-- C4 amended: when auto-scale is enabled and at least one speed sample
exists, the y-axis upper bound passed to the chart equals
1.1 x max(1.0, maximum speed sample across all interfaces' histories) —
the 1.1 headroom factor multiplies the clamped maximum rather than being
applied before the clamp as the claim stated. -/
theorem y_axis_upper_amended (st : State) (h : allSamples st ≠ []) :
    y_axis_upper st = (11 / 10) * max 1 (maxSample st) := by
  rw [y_axis_upper, autoScaleMaxSpeed_eq, mul_comm]
  congr 1
  cases hl : allSamples st with
  | nil => exact absurd hl h
  | cons x tl =>
    rw [maxSample, hl]
    have h1 : (x :: tl).foldl max 0 = max 0 (tl.foldl max x) := by
      rw [List.foldl_cons, foldl_max_max]
    have h2 : (x :: tl).foldl max ((x :: tl).headI) = tl.foldl max x := by
      rw [List.headI, List.foldl_cons, max_self]
    rw [h1, h2, ← max_assoc, max_eq_left (by norm_num : (0 : ℚ) ≤ 1)]

/-- C4 witness: the amended bound evaluated on the concrete one-sample
state. -/
theorem y_axis_upper_amended_witness :
    y_axis_upper sampleSt = (11 / 10) * max 1 (maxSample sampleSt) :=
  y_axis_upper_amended sampleSt (by decide)

/-- C5 counterexample: with one active interface the panel content already
takes 27 lines plus the bottom border, so at chart height 10 the panel
produced by create_stats_display has 28 lines, not 10. -/
theorem stats_panel_counterexample :
    (create_stats_display 20 10 sampleSt (fun _ => false) 0).map List.length =
        some 28 ∧ (28 : ℕ) ≠ 10 :=
  ⟨by decide, by decide⟩

/-- C5 amended: for every terminal size and state, the stats panel has
max(24 + 4*A, height) lines, A being the number of interfaces with non-empty
history: content is padded with blank bordered lines up to height - 1 and
closed with a bottom border, so the panel's line count equals the chart
region's height exactly when the content fits (height >= 24 + 4*A) and
exceeds it otherwise. -/
theorem stats_panel_line_count (width height : ℕ) (st : State)
    (status : String → Bool) (now : ℚ) (h0 : st ≠ []) :
    (create_stats_display width height st status now).map List.length =
      some (max (24 + 4 * (st.filter (fun p => p.2.timestamps ≠ [])).length) height) := by
  cases st with
  | nil => exact absurd rfl h0
  | cons first rest =>
    simp only [create_stats_display, Option.map_some']
    refine congrArg some ?_
    simp only [List.length_append, List.length_replicate, List.length_cons,
      List.length_nil, length_flatten_detail]
    omega

/-- C5 witness: the amended line-count formula on the concrete one-interface
state at chart height 10. -/
theorem stats_panel_line_count_witness :
    (create_stats_display 20 10 sampleSt (fun _ => false) 0).map List.length =
      some (max (24 + 4 * (sampleSt.filter (fun p => p.2.timestamps ≠ [])).length) 10) :=
  stats_panel_line_count 20 10 sampleSt (fun _ => false) 0 (by decide)

/-- C6: for every interface and after every sequence of update_data calls
(in particular after any eviction), timeIndex is exactly
[0, 1, ..., len-1] for its current length. -/
theorem timeIndex_is_range (history_size : ℕ) (ticks : List Tick)
    (i : String) (d : IfaceData)
    (hd : assocFind (runUpdates history_size ticks) i = some d) :
    d.timestamps = List.range d.timestamps.length := by
  refine runUpdates_entry_inv'
    (fun d => d.timestamps = List.range d.timestamps.length)
    history_size ?_ ?_ ticks i d hd
  · intro t; rfl
  · intro d' a b c e h
    exact updateIface_timestamps_range a b c e history_size h

/-- C6 witness: the range-shaped timeIndex of the concrete sampleTicks
entry. -/
theorem timeIndex_is_range_witness :
    sampleEntry.timestamps = List.range sampleEntry.timestamps.length :=
  timeIndex_is_range 60 sampleTicks "eth0" sampleEntry rfl

/-- C7: with the current snapshot's keys forming a dict (no duplicates), an
entry for interface i exists after update_data if and only if it existed
before or i was present in both the current and the previous snapshot.  In
particular an interface seen for the first time (present only in current,
no prior entry) gets no entry and no speed sample; an entry appears exactly
once a tick sees the interface in both snapshots. -/
theorem entry_existence (stats previous_stats : Snapshot) (history_size : ℕ)
    (now : ℚ) (st : State) (i : String)
    (hn : (stats.map Prod.fst).Nodup) :
    (assocFind (update_data stats previous_stats history_size now st) i).isSome = true ↔
      ((assocFind st i).isSome = true ∨
        ((assocFind stats i).isSome = true ∧
          (assocFind previous_stats i).isSome = true)) := by
  cases hc : assocFind stats i with
  | some c =>
    cases hp : assocFind previous_stats i with
    | some p =>
      rw [assocFind_update_data_both hn hc hp]
      simp
    | none =>
      rw [assocFind_update_data_skip hn (Or.inr hp)]
      simp
  | none =>
    rw [assocFind_update_data_skip hn (Or.inl hc)]
    simp

/-- C7 witness: wlan0 appears only in the current snapshot of this tick and
has no prior entry, so no entry is created for it. -/
theorem entry_existence_witness :
    (assocFind (update_data [("wlan0", (1, 2))] [] 60 0 []) "wlan0").isSome = true ↔
      ((assocFind ([] : State) "wlan0").isSome = true ∨
        ((assocFind [("wlan0", ((1 : ℤ), (2 : ℤ)))] "wlan0").isSome = true ∧
          (assocFind ([] : Snapshot) "wlan0").isSome = true)) :=
  entry_existence [("wlan0", (1, 2))] [] 60 0 [] "wlan0" (by decide)

/-- C8: an interface with an existing entry that is absent from the current
snapshot keeps its entire entry — histories, timeIndex, peaks, totals and
startTime — unchanged: it is never removed, only frozen. -/
theorem absent_iface_frozen (stats previous_stats : Snapshot) (history_size : ℕ)
    (now : ℚ) (st : State) (i : String) (d : IfaceData)
    (hn : (stats.map Prod.fst).Nodup)
    (habs : assocFind stats i = none)
    (hd : assocFind st i = some d) :
    assocFind (update_data stats previous_stats history_size now st) i = some d := by
  rw [assocFind_update_data_skip hn (Or.inl habs), hd]

/-- C8 witness: eth0's recorded entry survives unchanged through a tick whose
snapshots only mention wlan0. -/
theorem absent_iface_frozen_witness :
    assocFind (update_data [("wlan0", (5, 5))] [("wlan0", (1, 1))] 60 0
      [("eth0", sampleEntry)]) "eth0" = some sampleEntry :=
  absent_iface_frozen [("wlan0", (5, 5))] [("wlan0", (1, 1))] 60 0
    [("eth0", sampleEntry)] "eth0" sampleEntry (by decide) (by decide) rfl

/-- C9: byte formatting thresholds are exact at the unit boundary:
one byte below 1 MB still renders with the KB unit (as "1024.00 KB"), and
exactly 1 MB renders as exactly "1.00 MB". -/
theorem format_bytes_boundaries :
    format_bytes (1024 * 1024 - 1) = "1024.00 KB" ∧
      format_bytes (1024 * 1024) = "1.00 MB" := by
  constructor
  · rw [format_bytes, if_neg (by norm_num), if_neg (by norm_num),
      fmt2, if_neg (by norm_num)]
    rw [show round ((1024 * 1024 - 1 : ℚ) / 1024 * 100) = 102400 from by
      rw [round_eq, Int.floor_eq_iff]
      constructor <;> norm_num]
    rfl
  · rw [format_bytes, if_neg (by norm_num), if_pos (by norm_num),
      fmt2, if_neg (by norm_num)]
    rw [show round ((1024 * 1024 : ℚ) / (1024 * 1024) * 100) = 100 from by
      rw [round_eq, Int.floor_eq_iff]
      constructor <;> norm_num]
    rfl

/-- C10: create_stats_display returns no panel exactly when no interface has
ever been recorded — the Monitor Duration computation draws the first entry
of the per-interface map, which fails on an empty map — so every successful
render requires at least one recorded interface. -/
theorem stats_display_requires_entry (width height : ℕ) (st : State)
    (status : String → Bool) (now : ℚ) :
    create_stats_display width height st status now = none ↔ st = [] := by
  cases st with
  | nil => simp [create_stats_display]
  | cons first rest => simp [create_stats_display]

/-- C10 witness: the empty state yields no panel. -/
theorem stats_display_requires_entry_witness :
    create_stats_display 20 10 [] (fun _ => false) 0 = none :=
  (stats_display_requires_entry 20 10 [] (fun _ => false) 0).mpr rfl

end Netchart
